import Mathlib

/-!
Shallow embedding of the annotation capture and compositing engine of the
ideation-buddy repository.

The embedded code:
* `src/src/components/Whiteboard/PageCanvas.tsx` — the per-surface drawing
  controller (`startDrawing` / `draw` / `stopDrawing` / `redrawCanvas`):
  committed stroke list, in-progress point list, incremental segment
  rendering, full-history replay.
* the PDF layer (capture + export): `captureCurrentPage` (compositing a base
  page raster with the page's drawing canvas) and `exportPdf` (re-decoding
  the source PDF, embedding each annotated page's raster, re-encoding).
* the stroke data model from the shared type declarations.

The 2D canvas context is modelled by the trace of primitive context
operations a call emits (`clearRect`, `beginPath`, style setters, `moveTo`,
`lineTo`, `stroke`), and the pixel-level compositing used by the capture
path is modelled with premultiplied-alpha RGBA pixels over `ℚ`.
-/

namespace IdeationBuddy

/-- Model of `Point` from the shared annotation type declarations: `{x, y}` in
surface-local pixel coordinates.  Coordinates are modelled as integers. -/
structure Point where
  x : Int
  y : Int
deriving DecidableEq, Repr

instance : Inhabited Point := ⟨⟨0, 0⟩⟩

/-- The drawing tool: `'pen' | 'eraser'`. -/
inductive Tool where
  | pen
  | eraser
deriving DecidableEq, Repr

/-- Model of `Stroke` from the shared annotation type declarations:
`{points, color, lineWidth, tool}`. -/
structure Stroke where
  points : List Point
  color : String
  lineWidth : Int
  tool : Tool
deriving DecidableEq, Repr

/-- The canvas `globalCompositeOperation` values the code uses. -/
inductive Composite where
  | sourceOver
  | destinationOut
deriving DecidableEq, Repr

/-- A primitive 2D-context operation, as emitted onto a canvas context. -/
inductive CanvasOp where
  | clearRect (x y w h : Int)
  | beginPath
  | setStrokeStyle (c : String)
  | setLineWidth (w : Int)
  | setLineCap (s : String)
  | setLineJoin (s : String)
  | setComposite (c : Composite)
  | moveTo (p : Point)
  | lineTo (p : Point)
  | strokePath
deriving DecidableEq, Repr

/-- The per-segment / per-stroke style setup shared by `draw` (incremental)
and `redrawCanvas` (replay) in `PageCanvas.tsx`: `beginPath`, then
`strokeStyle`, `lineWidth`, `lineCap`, `lineJoin`,
`globalCompositeOperation`, each chosen by `tool === 'eraser'` exactly as in
the source (eraser: `'rgba(0,0,0,1)'`, width `20`, `'destination-out'`;
pen: the configured color and width, `'source-over'`). -/
def segStyle (tool : Tool) (color : String) (lineWidth : Int) : List CanvasOp :=
  [CanvasOp.beginPath,
   CanvasOp.setStrokeStyle (if tool = Tool.eraser then "rgba(0,0,0,1)" else color),
   CanvasOp.setLineWidth (if tool = Tool.eraser then 20 else lineWidth),
   CanvasOp.setLineCap "round",
   CanvasOp.setLineJoin "round",
   CanvasOp.setComposite (if tool = Tool.eraser then Composite.destinationOut else Composite.sourceOver)]

/-- The incremental segment rendering done by `draw` in `PageCanvas.tsx`
(lines 162–170): style setup, `moveTo(prev)`, `lineTo(curr)`, `stroke()`. -/
def drawSegment (tool : Tool) (color : String) (lineWidth : Int)
    (prev curr : Point) : List CanvasOp :=
  segStyle tool color lineWidth ++
    [CanvasOp.moveTo prev, CanvasOp.lineTo curr, CanvasOp.strokePath]

/-- The operations `redrawCanvas` emits for one committed stroke
(`PageCanvas.tsx` lines 69–84): a stroke with fewer than 2 points is
skipped (`if (stroke.points.length < 2) return`), otherwise style setup
from the stroke's own recorded fields, `moveTo(points[0])`,
`lineTo(points[i])` for `i = 1 .. length-1`, then `stroke()`. -/
def strokeOps (st : Stroke) : List CanvasOp :=
  if st.points.length < 2 then []
  else
    segStyle st.tool st.color st.lineWidth ++
      [CanvasOp.moveTo (st.points.getD 0 default)] ++
      (List.range (st.points.length - 1)).map
        (fun i => CanvasOp.lineTo (st.points.getD (i + 1) default)) ++
      [CanvasOp.strokePath]

/-- Embedding of `redrawCanvas` (`PageCanvas.tsx` lines 58–88) as the trace it emits on a
canvas of pixel dimensions `w × h`: clear the whole raster, replay every
committed stroke in order via `strokeOps`, then reset the composite
operation to `'source-over'`. -/
def redrawCanvas (w h : Int) (strokes : List Stroke) : List CanvasOp :=
  CanvasOp.clearRect 0 0 w h ::
    ((strokes.map strokeOps).flatten ++ [CanvasOp.setComposite Composite.sourceOver])

/-- The state of one `PageCanvas` drawing controller: the committed stroke
list (`strokes` React state), the capture flag (`isDrawing`), the
in-progress point list (`currentStroke` ref), the live configuration
supplied top-down as props (`tool`, `color`, `lineWidth`), the trace of
context operations emitted so far, and the list of `onStrokesChange`
owner notifications issued so far. -/
structure CanvasState where
  strokes : List Stroke
  isDrawing : Bool
  currentStroke : List Point
  tool : Tool
  color : String
  lineWidth : Int
  trace : List CanvasOp
  notified : List (List Stroke)
deriving DecidableEq, Repr

/-- Embedding of `startDrawing` (`PageCanvas.tsx` lines 140–145): unconditionally sets
`isDrawing` and resets the in-progress point list to the single new point.
There is no already-capturing guard in the source. -/
def startDrawing (p : Point) (s : CanvasState) : CanvasState :=
  { s with isDrawing := true, currentStroke := [p] }

/-- Embedding of `draw` (`PageCanvas.tsx` lines 147–172): no-op unless capturing;
otherwise appends the point to the in-progress list and, once the list has
at least 2 points, incrementally strokes the segment between the previous
and the new point using the live `tool` / `color` / `lineWidth`. -/
def draw (q : Point) (s : CanvasState) : CanvasState :=
  if s.isDrawing then
    let pts := s.currentStroke ++ [q]
    let ops :=
      if 2 ≤ pts.length then
        drawSegment s.tool s.color s.lineWidth
          (pts.getD (pts.length - 2) default) (pts.getD (pts.length - 1) default)
      else []
    { s with currentStroke := pts, trace := s.trace ++ ops }
  else s

/-- Embedding of `stopDrawing` (`PageCanvas.tsx` lines 174–191): no-op unless capturing;
otherwise ends capture, commits the in-progress list as a new `Stroke`
(with the live configuration) when it has at least 2 points — appending it
to the committed list and notifying the owner — and always clears the
in-progress list. -/
def stopDrawing (s : CanvasState) : CanvasState :=
  if s.isDrawing then
    if 2 ≤ s.currentStroke.length then
      let newStroke : Stroke :=
        { points := s.currentStroke, color := s.color,
          lineWidth := s.lineWidth, tool := s.tool }
      let newStrokes := s.strokes ++ [newStroke]
      { s with isDrawing := false, strokes := newStrokes,
               notified := s.notified ++ [newStrokes], currentStroke := [] }
    else { s with isDrawing := false, currentStroke := [] }
  else s

/-- Folding `draw` over a list of captured points. -/
def drawAll (ps : List Point) (s : CanvasState) : CanvasState :=
  ps.foldl (fun st q => draw q st) s

/-- A full capture run: one `startDrawing`, then `draw` for each further
point, then `stopDrawing`. -/
def captureRun (p : Point) (ps : List Point) (s : CanvasState) : CanvasState :=
  stopDrawing (drawAll ps (startDrawing p s))

/-! ### Pixel-level compositing model for the capture path

Canvas compositing works on premultiplied-alpha RGBA pixels; we model a
pixel as four rationals and a raster as a list of pixel rows (top row
first, matching the canvas's top-left origin). -/

/-- A premultiplied-alpha RGBA pixel. -/
structure Pixel where
  r : ℚ
  g : ℚ
  b : ℚ
  a : ℚ
deriving DecidableEq, Repr

/-- The fully transparent pixel — the content of a freshly created canvas. -/
def Pixel.transparent : Pixel := ⟨0, 0, 0, 0⟩

/-- The `source-over` compositing of a source pixel onto a destination pixel,
in premultiplied-alpha form: `out = src + dst * (1 - src.a)`. -/
def over (s d : Pixel) : Pixel :=
  ⟨s.r + d.r * (1 - s.a), s.g + d.g * (1 - s.a),
   s.b + d.b * (1 - s.a), s.a + d.a * (1 - s.a)⟩

/-- A raster: rows of pixels, top row first. -/
abbrev Grid : Type := List (List Pixel)

/-- Number of pixel columns (width) of a raster, read off its first row. -/
def gridW (g : Grid) : Nat := (g.headD []).length

/-- Number of pixel rows (height) of a raster. -/
def gridH (g : Grid) : Nat := g.length

/-- A raster is rectangular when every row has the full width. -/
def Rectangular (g : Grid) : Prop := ∀ row ∈ g, row.length = gridW g

/-- A freshly created canvas of the same dimensions as `g`: every pixel
transparent. -/
def blankLike (g : Grid) : Grid :=
  g.map (fun row => row.map (fun _ => Pixel.transparent))

/-- Model of `ctx.drawImage(src, 0, 0)` with source and destination of equal
dimensions: per-pixel `source-over` compositing of `src` onto `dst`. -/
def drawImageOver (src dst : Grid) : Grid :=
  List.zipWith (List.zipWith over) src dst

/-- Model of `ctx.drawImage(img, 0, 0, w, h)`: the image resampled to `w × h`
(nearest-neighbour; out-of-range reads give the transparent pixel). -/
def scaleTo (w h : Nat) (img : Grid) : Grid :=
  (List.range h).map (fun y =>
    (List.range w).map (fun x =>
      (img.getD (y * gridH img / h) []).getD (x * gridW img / w) Pixel.transparent))

/-- A raster is empty when every pixel it holds is fully transparent. -/
def Transparent (g : Grid) : Prop :=
  ∀ row ∈ g, ∀ p ∈ row, p = Pixel.transparent

/-- The compositing core of `captureCurrentPage` in the PDF layer (lines
79–108): create a combined canvas with the base (PDF page) raster's
dimensions — fresh, hence fully transparent — draw the base raster onto it
at the origin, then, when an annotation canvas is present, draw it on top
scaled to the combined canvas's width and height.  A missing annotation
canvas (no registered handle / no second canvas in the page wrapper) skips
the overlay step. -/
def captureCurrentPage (base : Grid) (annotCanvas : Option Grid) : Grid :=
  let combined := drawImageOver base (blankLike base)
  match annotCanvas with
  | none => combined
  | some an => drawImageOver (scaleTo (gridW base) (gridH base) an) combined

/-! ### Export pipeline model (`exportPdf` in the PDF layer, lines 110–169)

The PDF codec (pdf-lib) is an external collaborator; its fallible steps —
reading the source bytes, `PDFDocument.load`, fetching/decoding a page's
PNG data URL plus `embedPng` (merged into one fallible step per page), and
`save` — are modelled as `Except`-valued oracle fields.  The operations the
pipeline issues against the codec's document are recorded as `PdfOp`s. -/

/-- An operation issued against the output PDF document: embedding a PNG
image (the page's annotation raster, exactly as handed over), or drawing an
embedded image onto page `n` at position `(x, y)` with the given width and
height — the only placement data the source passes to `page.drawImage`. -/
inductive PdfOp where
  | embedPng (img : Grid)
  | drawImage (n : Nat) (img : Grid) (x y w h : Int)
deriving DecidableEq

/-- The codec collaborator's fallible steps. -/
structure Codec where
  readBytes : Except String (List Nat)
  load : List Nat → Except String (List (Int × Int))
  embedPng : Grid → Except String Unit
  save : List PdfOp → Except String (List Nat)

/-- The per-page stroke map (`annotations: { [pageNumber]: Stroke[] }`),
as an association list from page number to stroke list. -/
abbrev AnnotMap : Type := List (Nat × List Stroke)

/-- Lookup of `annotations[pageNumber]` with JS semantics: an absent key reads as the
empty list (the source guards with `annotations[pageNumber]?.length > 0`,
and `undefined > 0` is false, as is `0 > 0`). -/
def lookupAnnots (m : AnnotMap) (n : Nat) : List Stroke :=
  ((m.find? (fun e => e.1 == n)).map (fun e => e.2)).getD []

/-- The page-iteration loop of `exportPdf` (lines 128–148) over pages given
as `(pageNumber, width, height)` triples: for each page, if a canvas handle
is registered for its page number and the stroke map holds a non-empty list
there, fetch-and-embed the page's raster (fallible) and draw it onto the
page at `x = 0, y = 0` with the page's full width and height; otherwise the
page is skipped entirely.  Any failure aborts the loop with the error. -/
def buildPages (c : Codec) (annots : AnnotMap) (handles : Nat → Option Grid) :
    List (Nat × Int × Int) → Except String (List PdfOp)
  | [] => Except.ok []
  | (n, w, h) :: rest =>
    match handles n with
    | some raster =>
      if 0 < (lookupAnnots annots n).length then
        match c.embedPng raster with
        | Except.ok _ =>
          match buildPages c annots handles rest with
          | Except.ok ops =>
            Except.ok (PdfOp.embedPng raster :: PdfOp.drawImage n raster 0 0 w h :: ops)
          | Except.error e => Except.error e
        | Except.error e => Except.error e
      else buildPages c annots handles rest
    | none => buildPages c annots handles rest

/-- Page-number the decoded pages 1-based, pairing each with its size, as
the loop `for (let i = 0; i < pages.length; i++) { const pageNumber = i + 1;
... }` does. -/
def enumPages (pages : List (Int × Int)) : List (Nat × Int × Int) :=
  pages.enum.map (fun e => (e.1 + 1, e.2.1, e.2.2))

/-- The body of `exportPdf`'s `try` block: read the source bytes, decode
the document, run the page loop, then serialize.  Each step's failure
propagates out. -/
def runExport (c : Codec) (annots : AnnotMap) (handles : Nat → Option Grid) :
    Except String (List Nat) :=
  match c.readBytes with
  | Except.error e => Except.error e
  | Except.ok bytes =>
    match c.load bytes with
    | Except.error e => Except.error e
    | Except.ok pages =>
      match buildPages c annots handles (enumPages pages) with
      | Except.error e => Except.error e
      | Except.ok ops => c.save ops

/-- The observable outcome of one `exportPdf` invocation: the bytes handed
to the download/save collaborator (only on full success), the number of
user-visible error surfaces (`alert` calls), and the in-memory stroke map
afterwards (`exportPdf` never writes it). -/
structure ExportOutcome where
  savedOutput : Option (List Nat)
  alerts : Nat
  annotsAfter : AnnotMap
deriving DecidableEq

/-- Embedding of `exportPdf` (lines 110–169): no-op without a file; otherwise the whole
pipeline runs inside one `try` — on success the serialized bytes go to the
download collaborator, on any failure the single `catch` surfaces one
`alert` and nothing is saved.  The stroke map is never mutated. -/
def exportPdf (c : Codec) (hasFile : Bool) (annots : AnnotMap)
    (handles : Nat → Option Grid) : ExportOutcome :=
  if hasFile then
    match runExport c annots handles with
    | Except.ok bytes => ⟨some bytes, 0, annots⟩
    | Except.error _ => ⟨none, 1, annots⟩
  else ⟨none, 0, annots⟩

/-- Vertical flip of a raster (top row becomes bottom row). -/
def vflip (g : Grid) : Grid := g.reverse

/-- Modelled from the spec (refinement target for the flip claim, not from
the source): "the annotation raster, captured top-left-origin, must be
flipped/translated accordingly before embedding" — i.e. the image embedded
into the document is the vertically flipped captured raster. -/
def specFlipsBeforeEmbed (captured : Grid) (ops : List PdfOp) : Prop :=
  PdfOp.embedPng (vflip captured) ∈ ops ∧ PdfOp.embedPng captured ∉ ops

/-- The live configuration never consulted by `redrawCanvas`: the replay
closure in the source reads only the `strokes` state (its body mentions no
prop), which this wrapper makes explicit by taking the full controller
state. -/
def redrawCanvasFull (w h : Int) (s : CanvasState) : List CanvasOp :=
  redrawCanvas w h s.strokes

/-! ### Helper lemmas -/

theorem drawAll_nil (s : CanvasState) : drawAll [] s = s := rfl

theorem drawAll_cons (q : Point) (ps : List Point) (s : CanvasState) :
    drawAll (q :: ps) s = drawAll ps (draw q s) := rfl

theorem draw_capturing (q : Point) (s : CanvasState) (h : s.isDrawing = true) :
    (draw q s).isDrawing = true ∧
    (draw q s).currentStroke = s.currentStroke ++ [q] ∧
    (draw q s).strokes = s.strokes ∧
    (draw q s).tool = s.tool ∧
    (draw q s).color = s.color ∧
    (draw q s).lineWidth = s.lineWidth ∧
    (draw q s).notified = s.notified := by
  simp [draw, h]

theorem drawAll_capturing (ps : List Point) (s : CanvasState) (h : s.isDrawing = true) :
    (drawAll ps s).isDrawing = true ∧
    (drawAll ps s).currentStroke = s.currentStroke ++ ps ∧
    (drawAll ps s).strokes = s.strokes ∧
    (drawAll ps s).tool = s.tool ∧
    (drawAll ps s).color = s.color ∧
    (drawAll ps s).lineWidth = s.lineWidth ∧
    (drawAll ps s).notified = s.notified := by
  induction ps generalizing s with
  | nil => exact ⟨h, by simp [drawAll_nil], rfl, rfl, rfl, rfl, rfl⟩
  | cons q ps ih =>
    obtain ⟨d1, d2, d3, d4, d5, d6, d7⟩ := draw_capturing q s h
    obtain ⟨h1, h2, h3, h4, h5, h6, h7⟩ := ih (draw q s) d1
    rw [drawAll_cons]
    refine ⟨h1, ?_, ?_, ?_, ?_, ?_, ?_⟩
    · rw [h2, d2]; simp
    · rw [h3, d3]
    · rw [h4, d4]
    · rw [h5, d5]
    · rw [h6, d6]
    · rw [h7, d7]

theorem stopDrawing_commits (s : CanvasState) (h : s.isDrawing = true)
    (hlen : 2 ≤ s.currentStroke.length) :
    stopDrawing s =
      { s with isDrawing := false,
               strokes := s.strokes ++
                 [{ points := s.currentStroke, color := s.color,
                    lineWidth := s.lineWidth, tool := s.tool }],
               notified := s.notified ++
                 [s.strokes ++
                   [{ points := s.currentStroke, color := s.color,
                      lineWidth := s.lineWidth, tool := s.tool }]],
               currentStroke := [] } := by
  simp [stopDrawing, h, hlen]

theorem two_le_length_of_distinct_mem {α : Type} {a b : α} {l : List α}
    (ha : a ∈ l) (hb : b ∈ l) (hab : a ≠ b) : 2 ≤ l.length := by
  match l with
  | [] => simp at ha
  | [x] =>
    simp at ha hb
    exact absurd (ha.trans hb.symm) hab
  | x :: y :: rest => simp

/-! ### Claims about the drawing controller -/

/-- Claim C1: for every capture sequence on a drawing controller consisting
of one `beginStroke` (`startDrawing`), zero or more `extendStroke` (`draw`)
calls, then `endStroke` (`stopDrawing`), supplying at least 2 distinct
points in total, the committed stroke sequence grows by exactly one stroke,
and that stroke's point list equals the supplied points in the order
supplied. -/
theorem c1_capture_commits_supplied_points (p : Point) (ps : List Point)
    (s : CanvasState) (hdist : ∃ a ∈ p :: ps, ∃ b ∈ p :: ps, a ≠ b) :
    (captureRun p ps s).strokes =
      s.strokes ++ [{ points := p :: ps, color := s.color,
                      lineWidth := s.lineWidth, tool := s.tool }] ∧
    (captureRun p ps s).strokes.length = s.strokes.length + 1 := by
  obtain ⟨a, ha, b, hb, hab⟩ := hdist
  have hlen : 2 ≤ (p :: ps).length := two_le_length_of_distinct_mem ha hb hab
  obtain ⟨h1, h2, h3, h4, h5, h6, h7⟩ :=
    drawAll_capturing ps (startDrawing p s) rfl
  have hcs : (drawAll ps (startDrawing p s)).currentStroke = p :: ps := by
    rw [h2]; rfl
  have hmain :
      (captureRun p ps s).strokes =
        s.strokes ++ [{ points := p :: ps, color := s.color,
                        lineWidth := s.lineWidth, tool := s.tool }] := by
    have hstop :=
      stopDrawing_commits (drawAll ps (startDrawing p s)) h1 (by rw [hcs]; exact hlen)
    have hproj : (captureRun p ps s).strokes =
        (drawAll ps (startDrawing p s)).strokes ++
          [{ points := (drawAll ps (startDrawing p s)).currentStroke,
             color := (drawAll ps (startDrawing p s)).color,
             lineWidth := (drawAll ps (startDrawing p s)).lineWidth,
             tool := (drawAll ps (startDrawing p s)).tool }] := by
      rw [captureRun, hstop]
    rw [hproj, h3, h4, h5, h6, hcs]
    rfl
  exact ⟨hmain, by rw [hmain]; simp⟩

/-- Witness for C1 at a concrete run: begin at `(0,0)`, extend to `(1,1)`,
end. -/
theorem c1_capture_commits_supplied_points_witness :
    (captureRun ⟨0, 0⟩ [⟨1, 1⟩]
        { strokes := [], isDrawing := false, currentStroke := [],
          tool := Tool.pen, color := "#ffffff", lineWidth := 3,
          trace := [], notified := [] }).strokes =
      [{ points := [⟨0, 0⟩, ⟨1, 1⟩], color := "#ffffff",
         lineWidth := 3, tool := Tool.pen }] :=
  (c1_capture_commits_supplied_points ⟨0, 0⟩ [⟨1, 1⟩]
    { strokes := [], isDrawing := false, currentStroke := [],
      tool := Tool.pen, color := "#ffffff", lineWidth := 3,
      trace := [], notified := [] }
    ⟨⟨0, 0⟩, by simp, ⟨1, 1⟩, by simp, by decide⟩).1

/-- Claim C2: a stroke with `tool = eraser` is always rendered — both by the
incremental per-segment path of `draw` and by the full-history replay of
`redrawCanvas` — with effective line width 20 and the destructive
`destination-out` composite mode instead of its declared color, regardless
of the configured `color` / `lineWidth`; the configured color and width are
consulted only when `tool = pen`. -/
theorem c2_eraser_fixed_width_and_composite :
    (∀ (color : String) (lineWidth : Int),
      segStyle Tool.eraser color lineWidth =
        [CanvasOp.beginPath, CanvasOp.setStrokeStyle "rgba(0,0,0,1)",
         CanvasOp.setLineWidth 20, CanvasOp.setLineCap "round",
         CanvasOp.setLineJoin "round",
         CanvasOp.setComposite Composite.destinationOut]) ∧
    (∀ (color : String) (lineWidth : Int),
      segStyle Tool.pen color lineWidth =
        [CanvasOp.beginPath, CanvasOp.setStrokeStyle color,
         CanvasOp.setLineWidth lineWidth, CanvasOp.setLineCap "round",
         CanvasOp.setLineJoin "round",
         CanvasOp.setComposite Composite.sourceOver]) ∧
    (∀ (c₁ c₂ : String) (w₁ w₂ : Int) (prev curr : Point),
      drawSegment Tool.eraser c₁ w₁ prev curr =
        drawSegment Tool.eraser c₂ w₂ prev curr) ∧
    (∀ (st : Stroke) (c : String) (w : Int), st.tool = Tool.eraser →
      strokeOps { st with color := c, lineWidth := w } = strokeOps st) := by
  refine ⟨fun color lineWidth => by simp [segStyle],
          fun color lineWidth => by simp [segStyle],
          fun c₁ c₂ w₁ w₂ prev curr => by simp [drawSegment, segStyle],
          ?_⟩
  intro st c w h
  simp [strokeOps, segStyle, h]

/-- Claim C3: `redrawCanvas` first clears the raster and then replays the
committed strokes in sequence order, rendering each stroke from its own
recorded tool/color/lineWidth/composite (`strokeOps` reads only the stroke's
fields); it never consults the controller's current live settings — two
controller states with the same committed strokes produce identical replay
traces. -/
theorem c3_redraw_uses_recorded_attributes (w h : Int) (s t : CanvasState)
    (hst : s.strokes = t.strokes) :
    redrawCanvasFull w h s = redrawCanvasFull w h t ∧
    redrawCanvasFull w h s =
      CanvasOp.clearRect 0 0 w h ::
        ((s.strokes.map strokeOps).flatten ++
          [CanvasOp.setComposite Composite.sourceOver]) := by
  constructor
  · simp [redrawCanvasFull, redrawCanvas, hst]
  · rfl

/-- Witness for C3: two controllers sharing one committed stroke but with
opposite live tools, colors and widths replay identically. -/
theorem c3_redraw_uses_recorded_attributes_witness :
    redrawCanvasFull 10 10
        { strokes := [{ points := [⟨0, 0⟩, ⟨1, 1⟩], color := "#ff0000",
                        lineWidth := 3, tool := Tool.pen }],
          isDrawing := false, currentStroke := [], tool := Tool.pen,
          color := "#ff0000", lineWidth := 3, trace := [], notified := [] } =
      redrawCanvasFull 10 10
        { strokes := [{ points := [⟨0, 0⟩, ⟨1, 1⟩], color := "#ff0000",
                        lineWidth := 3, tool := Tool.pen }],
          isDrawing := false, currentStroke := [], tool := Tool.eraser,
          color := "#00ff00", lineWidth := 9, trace := [], notified := [] } :=
  (c3_redraw_uses_recorded_attributes 10 10
    { strokes := [{ points := [⟨0, 0⟩, ⟨1, 1⟩], color := "#ff0000",
                    lineWidth := 3, tool := Tool.pen }],
      isDrawing := false, currentStroke := [], tool := Tool.pen,
      color := "#ff0000", lineWidth := 3, trace := [], notified := [] }
    { strokes := [{ points := [⟨0, 0⟩, ⟨1, 1⟩], color := "#ff0000",
                    lineWidth := 3, tool := Tool.pen }],
      isDrawing := false, currentStroke := [], tool := Tool.eraser,
      color := "#00ff00", lineWidth := 9, trace := [], notified := [] }
    rfl).1

/-- A concrete controller state captured mid-stroke with two in-progress
points, for the C8 counterexample and witness. -/
def exCapturing : CanvasState :=
  { strokes := [], isDrawing := true, currentStroke := [⟨0, 0⟩, ⟨1, 1⟩],
    tool := Tool.pen, color := "#ffffff", lineWidth := 3,
    trace := [], notified := [] }

/-- Counterexample to C8 as stated: in a state that is already capturing
(two in-progress points), a further `startDrawing` is not a no-op — it
discards the in-progress point list and replaces it with the new point, so
the in-progress sequence is not left unchanged. -/
theorem c8_counterexample :
    exCapturing.isDrawing = true ∧
    (startDrawing ⟨2, 2⟩ exCapturing).currentStroke ≠ exCapturing.currentStroke := by
  refine ⟨rfl, ?_⟩
  simp [startDrawing, exCapturing]

/-- Claim C8 (amended): a `beginStroke` call while a capture is already in
progress leaves the committed stroke sequence (and the raster trace and
owner notifications) unchanged, but it is not a no-op on the in-progress
state — it resets the in-progress point sequence to exactly the new point,
discarding the previously captured points, and remains capturing. -/
theorem c8_begin_while_capturing_resets (p : Point) (s : CanvasState)
    (_h : s.isDrawing = true) :
    (startDrawing p s).strokes = s.strokes ∧
    (startDrawing p s).currentStroke = [p] ∧
    (startDrawing p s).isDrawing = true ∧
    (startDrawing p s).trace = s.trace ∧
    (startDrawing p s).notified = s.notified := by
  simp [startDrawing]

/-- Witness for the amended C8 at the concrete capturing state. -/
theorem c8_begin_while_capturing_resets_witness :
    exCapturing.isDrawing = true ∧
    (startDrawing ⟨2, 2⟩ exCapturing).currentStroke = [⟨2, 2⟩] :=
  ⟨rfl, (c8_begin_while_capturing_resets ⟨2, 2⟩ exCapturing rfl).2.1⟩

/-- Claim C9: ending a capture whose in-progress sequence has fewer than 2
points commits nothing — the committed stroke sequence and the owner
notifications are unchanged — and in every case (commit or discard)
`stopDrawing` leaves the in-progress state empty.  The hypothesis is the
controller's reachability invariant: when not capturing, the in-progress
list is already empty (it starts empty and every `stopDrawing` that ends a
capture clears it). -/
theorem c9_short_capture_discarded (s : CanvasState)
    (hinv : s.isDrawing = false → s.currentStroke = []) :
    (stopDrawing s).currentStroke = [] ∧
    (s.currentStroke.length < 2 →
      (stopDrawing s).strokes = s.strokes ∧
      (stopDrawing s).notified = s.notified) := by
  by_cases h : s.isDrawing = true
  · by_cases h2 : 2 ≤ s.currentStroke.length
    · refine ⟨by simp [stopDrawing, h, h2], ?_⟩
      intro hlt; omega
    · simp [stopDrawing, h, h2]
  · have hf : s.isDrawing = false := by
      cases hd : s.isDrawing
      · rfl
      · exact absurd hd h
    simp [stopDrawing, hf, hinv hf]

/-- A concrete capturing state holding a single tap point, for the C9
witness. -/
def exTap : CanvasState :=
  { strokes := [], isDrawing := true, currentStroke := [⟨5, 5⟩],
    tool := Tool.pen, color := "#ffffff", lineWidth := 3,
    trace := [], notified := [] }

/-- Witness for C9 at the concrete one-point (tap) capture. -/
theorem c9_short_capture_discarded_witness :
    (stopDrawing exTap).currentStroke = [] ∧
    (stopDrawing exTap).strokes = exTap.strokes ∧
    (stopDrawing exTap).notified = exTap.notified :=
  ⟨(c9_short_capture_discarded exTap (by decide)).1,
   (c9_short_capture_discarded exTap (by decide)).2 (by decide)⟩

/-- Replay of a stroke list is unchanged when the degenerate strokes
(fewer than 2 points) are removed: they each contribute no operations. -/
theorem flatten_map_strokeOps_filter (l : List Stroke) :
    ((l.filter (fun st => decide (2 ≤ st.points.length))).map strokeOps).flatten =
      (l.map strokeOps).flatten := by
  induction l with
  | nil => rfl
  | cons st l ih =>
    by_cases h : 2 ≤ st.points.length
    · simp [List.filter_cons, h, ih]
    · have hlt : st.points.length < 2 := by omega
      have hz : strokeOps st = [] := by simp [strokeOps, hlt]
      simp [List.filter_cons, h, ih, hz]

/-- Claim C10: full-history replay is total on arbitrary committed stroke
sequences — including sequences installed from outside via `setStrokes`
that contain degenerate strokes — and skips every stroke with fewer than 2
points, drawing nothing for it: the replay trace equals the trace of the
sequence with the degenerate strokes filtered out, and a degenerate stroke
contributes no operations. -/
theorem c10_replay_skips_degenerate (w h : Int) (strokes : List Stroke) :
    redrawCanvas w h strokes =
      redrawCanvas w h (strokes.filter (fun st => decide (2 ≤ st.points.length))) ∧
    ∀ st : Stroke, st.points.length < 2 → strokeOps st = [] := by
  constructor
  · simp only [redrawCanvas, flatten_map_strokeOps_filter]
  · intro st hlt
    simp [strokeOps, hlt]

/-! ### Claims about the export pipeline -/

/-- Claim C5: a page whose page number has an empty or absent stroke
sequence in the stroke map receives no annotation image during export —
every `drawImage` the page loop issues targets a page whose stroke
sequence is non-empty. -/
theorem c5_empty_pages_untouched (c : Codec) (annots : AnnotMap)
    (handles : Nat → Option Grid) (pages : List (Nat × Int × Int))
    (ops : List PdfOp) (hok : buildPages c annots handles pages = Except.ok ops) :
    ∀ (n : Nat) (img : Grid) (x y w h : Int),
      PdfOp.drawImage n img x y w h ∈ ops → lookupAnnots annots n ≠ [] := by
  induction pages generalizing ops with
  | nil =>
    rw [buildPages] at hok
    cases hok
    simp
  | cons page rest ih =>
    obtain ⟨n', w', h'⟩ := page
    rw [buildPages] at hok
    cases hh : handles n' with
    | none =>
      rw [hh] at hok
      exact ih ops hok
    | some raster =>
      rw [hh] at hok
      dsimp only at hok
      by_cases hcnt : 0 < (lookupAnnots annots n').length
      · rw [if_pos hcnt] at hok
        cases he : c.embedPng raster with
        | error e => rw [he] at hok; cases hok
        | ok u =>
          rw [he] at hok
          cases hb : buildPages c annots handles rest with
          | error e => rw [hb] at hok; cases hok
          | ok ops' =>
            rw [hb] at hok
            cases hok
            intro n img x y w h hmem
            simp only [List.mem_cons] at hmem
            rcases hmem with hmem | hmem | hmem
            · cases hmem
            · injection hmem with hn himg hx hy hw hh2
              subst hn
              intro hnil
              rw [hnil] at hcnt
              simp at hcnt
            · exact ih ops' hb n img x y w h hmem
      · rw [if_neg hcnt] at hok
        exact ih ops hok

/-- A concrete codec whose steps all succeed, for export-claim witnesses. -/
def exCodecOk : Codec :=
  { readBytes := Except.ok [0],
    load := fun _ => Except.ok [(100, 200), (100, 200)],
    embedPng := fun _ => Except.ok (),
    save := fun ops => Except.ok (List.replicate ops.length 7) }

/-- A vertically asymmetric 1×2 raster: an opaque red pixel above a
transparent pixel. -/
def exAsymGrid : Grid := [[⟨1, 0, 0, 1⟩], [⟨0, 0, 0, 0⟩]]

/-- A stroke map holding one two-point pen stroke on page 1 and nothing on
page 2. -/
def exAnnotsP1 : AnnotMap :=
  [(1, [{ points := [⟨0, 0⟩, ⟨1, 1⟩], color := "#ff0000",
          lineWidth := 3, tool := Tool.pen }])]

/-- Canvas handles: page 1 has the asymmetric raster, no other handles. -/
def exHandlesP1 : Nat → Option Grid :=
  fun n => if n = 1 then some exAsymGrid else none

/-- Witness for C5: on a two-page run where only page 1 has strokes, the
loop issues its single `drawImage` against page 1, whose sequence is
non-empty. -/
theorem c5_empty_pages_untouched_witness :
    lookupAnnots exAnnotsP1 1 ≠ [] :=
  c5_empty_pages_untouched exCodecOk exAnnotsP1 exHandlesP1
    [(1, 100, 200), (2, 100, 200)]
    [PdfOp.embedPng exAsymGrid, PdfOp.drawImage 1 exAsymGrid 0 0 100 200]
    (by rfl) 1 exAsymGrid 0 0 100 200 (by simp)

/-- Claim C6: if any decode, embed, or encode step of an export fails, the
whole export aborts with exactly one user-visible error (`alert`), nothing
is handed to the download/save collaborator, and the in-memory stroke map
is unchanged — and the stroke map is unchanged by every export invocation,
successful or not. -/
theorem c6_failure_aborts_cleanly (c : Codec) (annots : AnnotMap)
    (handles : Nat → Option Grid) (e : String)
    (hfail : runExport c annots handles = Except.error e) :
    exportPdf c true annots handles =
      { savedOutput := none, alerts := 1, annotsAfter := annots } ∧
    ∀ b : Bool, (exportPdf c b annots handles).annotsAfter = annots := by
  constructor
  · simp [exportPdf, hfail]
  · intro b
    cases b with
    | false => rfl
    | true =>
      simp only [exportPdf, if_true]
      rcases hrun : runExport c annots handles with e' | bytes <;> simp [hrun]

/-- A codec whose very first step (reading the source bytes) fails, for the
C6 witness. -/
def exCodecFail : Codec :=
  { readBytes := Except.error "read failed",
    load := fun _ => Except.ok [],
    embedPng := fun _ => Except.ok (),
    save := fun _ => Except.ok [] }

/-- Witness for C6: a concrete export whose decode step fails surfaces one
alert, saves nothing, and leaves the stroke map unchanged. -/
theorem c6_failure_aborts_cleanly_witness :
    exportPdf exCodecFail true exAnnotsP1 exHandlesP1 =
      { savedOutput := none, alerts := 1, annotsAfter := exAnnotsP1 } :=
  (c6_failure_aborts_cleanly exCodecFail exAnnotsP1 exHandlesP1 "read failed" rfl).1

/-- The images embedded into the document by a list of issued operations. -/
def embeddedImages (ops : List PdfOp) : List Grid :=
  ops.filterMap (fun op =>
    match op with
    | PdfOp.embedPng img => some img
    | PdfOp.drawImage _ _ _ _ _ _ => none)

/-- The operations the page loop issues for the concrete one-page run used
in the C4 counterexample. -/
def exOpsP1 : List PdfOp :=
  [PdfOp.embedPng exAsymGrid, PdfOp.drawImage 1 exAsymGrid 0 0 100 200]

/-- Counterexample to C4 as stated: on a concrete export of one annotated
page the loop embeds the captured raster exactly as handed over — the
embedded image is the unflipped raster, and no vertically flipped raster is
embedded, so the pipeline does not flip/translate the raster before
embedding. -/
theorem c4_counterexample :
    buildPages exCodecOk exAnnotsP1 exHandlesP1 [(1, 100, 200)] =
      Except.ok exOpsP1 ∧
    embeddedImages exOpsP1 = [exAsymGrid] ∧
    ¬ specFlipsBeforeEmbed exAsymGrid exOpsP1 := by
  refine ⟨rfl, rfl, ?_⟩
  intro hspec
  exact absurd hspec.1 (by decide)

/-- Claim C4 (amended): for every page that receives an annotation image,
the export pipeline embeds the page's annotation raster unmodified — no
flip or translation is applied — and draws it at `x = 0, y = 0` with the
page's full width and height; vertical orientation is delegated to the PDF
codec's image-drawing convention. -/
theorem c4_embeds_raster_unflipped (c : Codec) (annots : AnnotMap)
    (handles : Nat → Option Grid) (n : Nat) (w h : Int) (raster : Grid)
    (hh : handles n = some raster) (hne : lookupAnnots annots n ≠ [])
    (hembed : c.embedPng raster = Except.ok ()) :
    buildPages c annots handles [(n, w, h)] =
      Except.ok [PdfOp.embedPng raster, PdfOp.drawImage n raster 0 0 w h] := by
  have hcnt : 0 < (lookupAnnots annots n).length := List.length_pos.mpr hne
  rw [buildPages, hh]
  dsimp only
  rw [if_pos hcnt, hembed]
  rw [buildPages]

/-- Witness for the amended C4 at the concrete one-page run. -/
theorem c4_embeds_raster_unflipped_witness :
    buildPages exCodecOk exAnnotsP1 exHandlesP1 [(1, 100, 200)] =
      Except.ok [PdfOp.embedPng exAsymGrid, PdfOp.drawImage 1 exAsymGrid 0 0 100 200] :=
  c4_embeds_raster_unflipped exCodecOk exAnnotsP1 exHandlesP1 1 100 200
    exAsymGrid rfl (by simp [lookupAnnots, exAnnotsP1]) rfl

/-! ### Claim about the capture compositing path -/

theorem over_transparent_right (p : Pixel) : over p Pixel.transparent = p := by
  simp [over, Pixel.transparent]

theorem over_transparent_left (p : Pixel) : over Pixel.transparent p = p := by
  simp [over, Pixel.transparent]

theorem zipWith_over_replicate_right (l : List Pixel) :
    ∀ n : Nat, l.length ≤ n →
      List.zipWith over l (List.replicate n Pixel.transparent) = l := by
  induction l with
  | nil => intro n hn; simp
  | cons p rest ih =>
    intro n hn
    cases n with
    | zero => simp at hn
    | succ n =>
      simp only [List.replicate_succ, List.zipWith_cons_cons]
      rw [over_transparent_right, ih n (by simpa using hn)]

/-- Drawing a raster onto a freshly created (all-transparent) canvas of its
own dimensions reproduces the raster exactly. -/
theorem drawImageOver_blankLike (g : Grid) : drawImageOver g (blankLike g) = g := by
  induction g with
  | nil => rfl
  | cons row rest ih =>
    have hrow : List.zipWith over row (row.map fun _ => Pixel.transparent) = row := by
      have hmap : (row.map fun _ => Pixel.transparent) =
          List.replicate row.length Pixel.transparent := by simp
      rw [hmap]
      exact zipWith_over_replicate_right row row.length le_rfl
    calc drawImageOver (row :: rest) (blankLike (row :: rest))
        = List.zipWith over row (row.map fun _ => Pixel.transparent) ::
            drawImageOver rest (blankLike rest) := rfl
      _ = row :: rest := by rw [hrow, ih]

theorem zipWith_over_replicate_transparent (l : List Pixel) :
    ∀ n : Nat, l.length ≤ n →
      List.zipWith over (List.replicate n Pixel.transparent) l = l := by
  induction l with
  | nil => intro n hn; simp
  | cons p rest ih =>
    intro n hn
    cases n with
    | zero => simp at hn
    | succ n =>
      simp only [List.replicate_succ, List.zipWith_cons_cons]
      rw [over_transparent_left, ih n (by simpa using hn)]

theorem row_getD_transparent (row : List Pixel)
    (h : ∀ p ∈ row, p = Pixel.transparent) (j : Nat) :
    row.getD j Pixel.transparent = Pixel.transparent := by
  induction row generalizing j with
  | nil => simp
  | cons p rest ih =>
    cases j with
    | zero => simpa using h p (by simp)
    | succ j =>
      simp only [List.getD_cons_succ]
      exact ih (fun q hq => h q (by simp [hq])) j

theorem grid_getD_transparent (an : Grid) (htr : Transparent an) (i j : Nat) :
    (an.getD i []).getD j Pixel.transparent = Pixel.transparent := by
  induction an generalizing i with
  | nil => simp
  | cons row rest ih =>
    cases i with
    | zero =>
      simp only [List.getD_cons_zero]
      exact row_getD_transparent row (htr row (by simp)) j
    | succ i =>
      simp only [List.getD_cons_succ]
      exact ih (fun r hr p hp => htr r (by simp [hr]) p hp) i

/-- Resampling a fully transparent raster yields a fully transparent raster
of the target dimensions. -/
theorem scaleTo_transparent (w h : Nat) (an : Grid) (htr : Transparent an) :
    scaleTo w h an = List.replicate h (List.replicate w Pixel.transparent) := by
  unfold scaleTo
  have hrow : ∀ y : Nat,
      ((List.range w).map (fun x =>
        (an.getD (y * gridH an / h) []).getD (x * gridW an / w) Pixel.transparent)) =
        List.replicate w Pixel.transparent := by
    intro y
    rw [List.map_congr_left
      (fun x _ => grid_getD_transparent an htr (y * gridH an / h) (x * gridW an / w))]
    simp
  rw [List.map_congr_left (fun y _ => hrow y)]
  simp

/-- Drawing an all-transparent raster (wide enough for every row) over a
raster leaves it unchanged. -/
theorem drawImageOver_replicate_transparent (g : Grid) (wd : Nat)
    (hw : ∀ row ∈ g, row.length ≤ wd) :
    drawImageOver (List.replicate g.length (List.replicate wd Pixel.transparent)) g = g := by
  induction g with
  | nil => rfl
  | cons row rest ih =>
    simp only [List.length_cons, List.replicate_succ, drawImageOver,
      List.zipWith_cons_cons]
    rw [zipWith_over_replicate_transparent row wd (hw row (by simp))]
    have ih2 := ih (fun r hr => hw r (by simp [hr]))
    simp only [drawImageOver] at ih2
    rw [ih2]

/-- Claim C7: flattening a base raster with a missing annotation raster, or
with an empty (fully transparent) annotation raster, produces the base
raster exactly.  `hrect` states the base raster is rectangular (every row
has the raster's width), as a canvas bitmap is. -/
theorem c7_flatten_empty_is_base (base an : Grid)
    (hrect : Rectangular base) (htr : Transparent an) :
    captureCurrentPage base none = base ∧
    captureCurrentPage base (some an) = base := by
  have hc : drawImageOver base (blankLike base) = base := drawImageOver_blankLike base
  constructor
  · show drawImageOver base (blankLike base) = base
    exact hc
  · show drawImageOver (scaleTo (gridW base) (gridH base) an)
      (drawImageOver base (blankLike base)) = base
    rw [hc, scaleTo_transparent (gridW base) (gridH base) an htr]
    have hlen : gridH base = base.length := rfl
    rw [hlen]
    exact drawImageOver_replicate_transparent base (gridW base)
      (fun row hr => le_of_eq (hrect row hr))

/-- Witness for C7: a concrete 1×1 opaque red base raster with a
transparent 1×1 annotation raster. -/
theorem c7_flatten_empty_is_base_witness :
    captureCurrentPage [[(⟨1, 0, 0, 1⟩ : Pixel)]] none = [[(⟨1, 0, 0, 1⟩ : Pixel)]] ∧
    captureCurrentPage [[(⟨1, 0, 0, 1⟩ : Pixel)]] (some [[Pixel.transparent]]) =
      [[(⟨1, 0, 0, 1⟩ : Pixel)]] :=
  c7_flatten_empty_is_base [[(⟨1, 0, 0, 1⟩ : Pixel)]] [[Pixel.transparent]]
    (by intro row hr; simp at hr; simp [hr, gridW])
    (by intro row hr p hp; simp at hr hp; rw [hr] at hp; simpa using hp)

end IdeationBuddy
